import Mathlib

/-!
Trail finder: loader, filter and request handler.

A shallow embedding of `src/main.go` (package `main`).

Modelling conventions
* Go `string` values are Lean `String`s; Go `==` on strings is Lean `==`.
* A Go slice is a Lean `List`; the nil slice and the empty slice are both `[]`.
* `append(s, x)` is `s ++ [x]`.
* A run-time panic is the `error` side of `Except Panic`; a Go `error` return value is an
  `Option GoError` (`none` is the nil error).
* The file system, the CSV reader and the template loader are not part of the program: the
  results of `os.Open`, `csv.Reader.ReadAll` and `template.ParseFiles` are read from a `World`.
* The parsed request form (`r.Form` after `r.ParseForm()`) is a map from field names to the
  list of submitted values.
-/

namespace TrailFinder

/-! ## Data model -/

/-- Trail represents a single trail with various attributes (`main.go` 10-21). -/
structure Trail where
  Name : String
  AccessType : String
  Restrooms : Bool
  Picnic : Bool
  Fishing : Bool
  Address : String
  Fee : Bool
  BikeRack : Bool
  Difficulty : String
deriving DecidableEq, Repr

/-- A Go `error` value, kept abstract: only its message is recorded. -/
structure GoError where
  msg : String
deriving DecidableEq, Repr

/-- Run-time panics the program can raise. -/
inductive Panic where
  /-- Slice expression `s[low:]` with `low > len(s)`: `slice bounds out of range [low:high]`. -/
  | sliceBoundsOutOfRange (low high : Nat)
  /-- Index expression `s[index]` with `index >= len(s)`. -/
  | indexOutOfRange (index length : Nat)
  /-- Failure raised by `template.Must` on a non-nil error. -/
  | templateMust (err : GoError)
deriving DecidableEq, Repr

/-- Go index expression `record[i]` on a slice of strings. -/
def index (record : List String) (i : Nat) : Except Panic String :=
  match record[i]? with
  | some v => .ok v
  | none => .error (.indexOutOfRange i record.length)

/-- Go slice expression `records[low:]`. -/
def sliceFrom {α : Type} (records : List α) (low : Nat) : Except Panic (List α) :=
  if low ≤ records.length then .ok (records.drop low)
  else .error (.sliceBoundsOutOfRange low records.length)

/-! ## mapDifficulty (`main.go` 23-37) -/

/-- The function mapDifficulty converts the trail class code to a difficulty level. -/
def mapDifficulty (cls : String) : String :=
  if cls = "T1" then "Easy"
  else if cls = "T2" then "Moderate"
  else if cls = "T3" then "Difficult"
  else if cls = "T4" then "Most Difficult"
  else "No"

/-! ## loadTrailsData (`main.go` 39-73) -/

/-- The composite literal `Trail{...}` of the loop body (`main.go` 59-69).

Go orders only the function calls of an expression, not its index expressions. The compiled
program evaluates the call `mapDifficulty(record[7])`, argument included, before the other
operands, and these then in source order; a row of at most 7 columns therefore faults at
index 7 and a row of 8 to 29 columns at index 29. -/
def trailOfRecord (record : List String) : Except Panic Trail := do
  let cls ← index record 7
  let difficulty := mapDifficulty cls
  let name ← index record 29
  let accessType ← index record 6
  let restrooms ← index record 1
  let picnic ← index record 2
  let fishing ← index record 3
  let address ← index record 8
  let fee ← index record 9
  let bikeRack ← index record 10
  pure
    { Name := name
      AccessType := accessType
      Restrooms := restrooms == "Yes"
      Picnic := picnic == "Yes"
      Fishing := fishing == "Yes"
      Address := address
      Fee := fee == "Yes"
      BikeRack := bikeRack == "Yes"
      Difficulty := difficulty }

/-- The `for _, record := range ...` loop of `loadTrailsData` (`main.go` 57-70), with the
accumulator `trails` as second argument. -/
def loadLoop : List (List String) → List Trail → Except Panic (List Trail)
  | [], trails => .ok trails
  | record :: rest, trails => do
    let trail ← trailOfRecord record
    loadLoop rest (trails ++ [trail])

/-- The row-mapping part of `loadTrailsData` (`main.go` 55-72): everything after
`reader.ReadAll()` has returned `records` with a nil error. -/
def loadTrailsRows (records : List (List String)) :
    Except Panic (List Trail × Option GoError) := do
  let rows ← sliceFrom records 1
  let trails ← loadLoop rows []
  pure (trails, none)

/-- The environment of the program: what the library calls return. -/
structure World where
  /-- The error returned by `os.Open(filename)`; `none` when the file opens. -/
  osOpen : String → Option GoError
  /-- The result of `reader.ReadAll()` on the file opened under that name. -/
  readAll : String → Except GoError (List (List String))
  /-- The error returned by `template.ParseFiles(name)`; `none` when it parses. -/
  parseFiles : String → Option GoError

/-- The function loadTrailsData reads trail data from a CSV file and maps it to Trails.
The result is the Go pair `([]Trail, error)`, or a panic. -/
def loadTrailsData (w : World) (filename : String) :
    Except Panic (List Trail × Option GoError) :=
  match w.osOpen filename with
  | some err => .ok ([], some err)
  | none =>
    match w.readAll filename with
    | .error err => .ok ([], some err)
    | .ok records => loadTrailsRows records

/-! ## filterTrails (`main.go` 75-91) -/

/-- The `for _, trail := range trails` loop of `filterTrails`, with the accumulator
`filtered` as last argument. -/
def filterLoop (address difficulty : String) (restrooms picnic fishing fee bikeRack : Bool) :
    List Trail → List Trail → List Trail
  | [], filtered => filtered
  | trail :: rest, filtered =>
    if ((address == "" || trail.Address == address) &&
        (difficulty == "" || trail.Difficulty == difficulty) &&
        (!restrooms || trail.Restrooms) &&
        (!picnic || trail.Picnic) &&
        (!fishing || trail.Fishing) &&
        (!fee || trail.Fee) &&
        (!bikeRack || trail.BikeRack)) = true then
      filterLoop address difficulty restrooms picnic fishing fee bikeRack rest
        (filtered ++ [trail])
    else
      filterLoop address difficulty restrooms picnic fishing fee bikeRack rest filtered

/-- The function filterTrails filters the trail data based on user input criteria. -/
def filterTrails (trails : List Trail) (address difficulty : String)
    (restrooms picnic fishing fee bikeRack : Bool) : List Trail :=
  filterLoop address difficulty restrooms picnic fishing fee bikeRack trails []

/-! ## handleTrails (`main.go` 93-118) -/

/-- The parsed form of a request: each field name with the values submitted for it. -/
abbrev Form := String → List String

/-- Go `(*http.Request).FormValue`: the first value of the field, `""` when there is none. -/
def FormValue (form : Form) (key : String) : String :=
  match form key with
  | v :: _ => v
  | [] => ""

/-- What the handler writes to the response. -/
inductive Response where
  /-- The call `http.Error(w, msg, code)`. -/
  | httpError (msg : String) (code : Nat)
  /-- The call `tmpl.Execute(w, data)` on the template parsed from `template`. -/
  | executed (template : String) (data : List Trail)
deriving DecidableEq, Repr

/-- The function handleTrails processes the HTTP request. -/
def handleTrails (w : World) (form : Form) : Except Panic Response :=
  let address := FormValue form "address"
  let difficulty := FormValue form "difficulty"
  let restrooms := FormValue form "restrooms" == "on"
  let picnic := FormValue form "picnic" == "on"
  let fishing := FormValue form "fishing" == "on"
  let fee := FormValue form "fee" == "on"
  let bikeRack := FormValue form "bikerack" == "on"
  match loadTrailsData w "BoulderTrailHeads.csv" with
  | .error p => .error p
  | .ok (_, some _) => .ok (.httpError "Error loading trails data" 500)
  | .ok (trails, none) =>
    let filteredTrails :=
      filterTrails trails address difficulty restrooms picnic fishing fee bikeRack
    match w.parseFiles "trails.html" with
    | some err => .error (.templateMust err)
    | none => .ok (.executed "trails.html" filteredTrails)

/-! ## Sample data used to exercise the definitions -/

/-- A 30-column row: index 0 is an id, the indices read by the loader hold the given values,
every other column is empty. -/
def sampleRow (name access restrooms picnic fishing cls address fee bikeRack : String) :
    List String :=
  ["id", restrooms, picnic, fishing, "", "", access, cls, address, fee, bikeRack] ++
    List.replicate 18 "" ++ [name]

/-- A header row of 30 columns. -/
def sampleHeader : List String := List.replicate 30 "h"

/-- A file of three columns throughout: a header and one data row of the same width, as
`csv.Reader.ReadAll` returns them (every row has the field count of the first). -/
def narrowFile : List (List String) :=
  [["ID", "Restrooms", "Picnic"], ["1", "Yes", "No"]]

/-- A file of twelve columns throughout: a header and two data rows of the same width. -/
def twelveColumnFile : List (List String) :=
  [List.replicate 12 "h", List.replicate 12 "Yes", List.replicate 12 "No"]

/-- Three data rows; only the first has address "Main St" and a fee. -/
def sampleData : List (List String) :=
  [ sampleRow "Bobolink" "Trailhead" "Yes" "yes" "YES" "T1" "Main St" "Yes" "No",
    sampleRow "Chautauqua" "Trailhead" "Yes" "Yes" "" "T9" "Baseline Rd" "No" "Yes",
    sampleRow "Sawhill" "Access Point" "No" "Yes" "Yes" "T2" "75th St" "" "Yes" ]

/-- The Trails the loader builds from `sampleData`. -/
def sampleTrails : List Trail :=
  [ { Name := "Bobolink", AccessType := "Trailhead", Restrooms := true, Picnic := false,
      Fishing := false, Address := "Main St", Fee := true, BikeRack := false,
      Difficulty := "Easy" },
    { Name := "Chautauqua", AccessType := "Trailhead", Restrooms := true, Picnic := true,
      Fishing := false, Address := "Baseline Rd", Fee := false, BikeRack := true,
      Difficulty := "No" },
    { Name := "Sawhill", AccessType := "Access Point", Restrooms := false, Picnic := true,
      Fishing := true, Address := "75th St", Fee := false, BikeRack := true,
      Difficulty := "Moderate" } ]

/-- A world in which every file opens, parses to the given rows, and every template parses. -/
def worldWithRows (records : List (List String)) : World where
  osOpen := fun _ => none
  readAll := fun _ => .ok records
  parseFiles := fun _ => none

/-- The form of the request `address=Main St&fee=on`. -/
def sampleForm : Form := fun key =>
  if key = "address" then ["Main St"]
  else if key = "fee" then ["on"]
  else []

/-- Positional lookup through a pairwise relation between two lists. -/
def relatedAt {α β : Type} (R : α → β → Prop) (xs : List α) (ys : List β) (i : Nat) : Prop :=
  ∀ x, xs[i]? = some x → ∃ y, ys[i]? = some y ∧ R x y

/-! ## Shared lemmas -/

/-- The criteria test of `filterTrails` as a predicate on one trail. -/
def keeps (address difficulty : String) (restrooms picnic fishing fee bikeRack : Bool)
    (trail : Trail) : Bool :=
  (address == "" || trail.Address == address) &&
  (difficulty == "" || trail.Difficulty == difficulty) &&
  (!restrooms || trail.Restrooms) &&
  (!picnic || trail.Picnic) &&
  (!fishing || trail.Fishing) &&
  (!fee || trail.Fee) &&
  (!bikeRack || trail.BikeRack)

theorem filterLoop_eq (address difficulty : String) (restrooms picnic fishing fee bikeRack : Bool)
    (trails filtered : List Trail) :
    filterLoop address difficulty restrooms picnic fishing fee bikeRack trails filtered =
      filtered ++ trails.filter (keeps address difficulty restrooms picnic fishing fee bikeRack) := by
  induction trails generalizing filtered with
  | nil => simp [filterLoop]
  | cons trail rest ih =>
    unfold filterLoop
    by_cases h : keeps address difficulty restrooms picnic fishing fee bikeRack trail = true
    · have h2 := h
      unfold keeps at h2
      rw [if_pos h2, ih, List.filter_cons_of_pos h]
      simp
    · have h2 := h
      unfold keeps at h2
      rw [if_neg h2, ih, List.filter_cons_of_neg h]

theorem filterTrails_eq_filter (trails : List Trail) (address difficulty : String)
    (restrooms picnic fishing fee bikeRack : Bool) :
    filterTrails trails address difficulty restrooms picnic fishing fee bikeRack =
      trails.filter (keeps address difficulty restrooms picnic fishing fee bikeRack) := by
  simp [filterTrails, filterLoop_eq]

theorem keeps_iff (address difficulty : String) (restrooms picnic fishing fee bikeRack : Bool)
    (t : Trail) :
    keeps address difficulty restrooms picnic fishing fee bikeRack t = true ↔
      (address = "" ∨ t.Address = address) ∧
      (difficulty = "" ∨ t.Difficulty = difficulty) ∧
      (restrooms = true → t.Restrooms = true) ∧
      (picnic = true → t.Picnic = true) ∧
      (fishing = true → t.Fishing = true) ∧
      (fee = true → t.Fee = true) ∧
      (bikeRack = true → t.BikeRack = true) := by
  cases restrooms <;> cases picnic <;> cases fishing <;> cases fee <;> cases bikeRack <;>
    simp [keeps, and_assoc]

/-! ## Theorems about filterTrails -/

/-- C1: a trail occurs in the output of filterTrails if and only if it occurs in the input
and satisfies every active criterion: the address and the difficulty are compared by exact
equality when non-empty, and a flag constrains only when it is true. -/
theorem filterTrails_mem_iff (trails : List Trail) (address difficulty : String)
    (restrooms picnic fishing fee bikeRack : Bool) (t : Trail) :
    t ∈ filterTrails trails address difficulty restrooms picnic fishing fee bikeRack ↔
      t ∈ trails ∧
      (address = "" ∨ t.Address = address) ∧
      (difficulty = "" ∨ t.Difficulty = difficulty) ∧
      (restrooms = true → t.Restrooms = true) ∧
      (picnic = true → t.Picnic = true) ∧
      (fishing = true → t.Fishing = true) ∧
      (fee = true → t.Fee = true) ∧
      (bikeRack = true → t.BikeRack = true) := by
  rw [filterTrails_eq_filter, List.mem_filter, keeps_iff]

/-- C2: with every criterion inactive (empty address, empty difficulty, all five flags
false) filterTrails returns its input list unchanged. -/
theorem filterTrails_inactive (trails : List Trail) :
    filterTrails trails "" "" false false false false false = trails := by
  rw [filterTrails_eq_filter]
  apply List.filter_eq_self.mpr
  intro t _
  simp [keeps]

/-- C3: the output of filterTrails is a sublist of the input (relative order kept, nothing
reordered), no trail occurs more often than in the input, and the output is never longer
than the input. -/
theorem filterTrails_sublist (trails : List Trail) (address difficulty : String)
    (restrooms picnic fishing fee bikeRack : Bool) :
    List.Sublist (filterTrails trails address difficulty restrooms picnic fishing fee bikeRack)
        trails ∧
      (∀ t : Trail,
        (filterTrails trails address difficulty restrooms picnic fishing fee bikeRack).count t ≤
          trails.count t) ∧
      (filterTrails trails address difficulty restrooms picnic fishing fee bikeRack).length ≤
        trails.length := by
  rw [filterTrails_eq_filter]
  have hs := List.filter_sublist (p := keeps address difficulty restrooms picnic fishing fee bikeRack)
    trails
  exact ⟨hs, fun t => hs.count_le t, hs.length_le⟩

/-- C4: filterTrails is idempotent for fixed criteria. -/
theorem filterTrails_idempotent (trails : List Trail) (address difficulty : String)
    (restrooms picnic fishing fee bikeRack : Bool) :
    filterTrails
        (filterTrails trails address difficulty restrooms picnic fishing fee bikeRack)
        address difficulty restrooms picnic fishing fee bikeRack =
      filterTrails trails address difficulty restrooms picnic fishing fee bikeRack := by
  simp only [filterTrails_eq_filter, List.filter_filter, Bool.and_self]

/-! ## Shared lemmas about the loader -/

theorem index_of_getElem? (record : List String) (i : Nat) (v : String)
    (h : record[i]? = some v) : index record i = .ok v := by
  simp [index, h]

theorem index_of_le (record : List String) (i : Nat) (h : record.length ≤ i) :
    index record i = .error (.indexOutOfRange i record.length) := by
  have hn : record[i]? = none := List.getElem?_eq_none h
  simp [index, hn]

theorem getElem?_of_lt (record : List String) (i : Nat) (h : i < record.length) :
    ∃ v, record[i]? = some v :=
  ⟨record[i], List.getElem?_eq_getElem h⟩

/-- A row shorter than 30 columns faults: at index 7 when it has at most 7 columns, at
index 29 otherwise. -/
theorem trailOfRecord_short (record : List String) (h : record.length < 30) :
    trailOfRecord record =
      .error (.indexOutOfRange (if record.length ≤ 7 then 7 else 29) record.length) := by
  by_cases h7 : record.length ≤ 7
  · have hi := index_of_le record 7 h7
    simp [trailOfRecord, hi, h7, bind, Except.bind]
  · obtain ⟨cls, hc⟩ := getElem?_of_lt record 7 (by omega)
    have hi := index_of_getElem? record 7 cls hc
    have h29 := index_of_le record 29 (by omega)
    simp [trailOfRecord, hi, h29, h7, bind, Except.bind]

/-- A row of at least 30 columns yields a Trail whose fields are read from the fixed columns. -/
theorem trailOfRecord_long (record : List String) (h : 30 ≤ record.length) :
    ∃ name accessType restrooms picnic fishing address fee bikeRack cls,
      record[29]? = some name ∧ record[6]? = some accessType ∧ record[1]? = some restrooms ∧
      record[2]? = some picnic ∧ record[3]? = some fishing ∧ record[8]? = some address ∧
      record[9]? = some fee ∧ record[10]? = some bikeRack ∧ record[7]? = some cls ∧
      trailOfRecord record = .ok
        { Name := name
          AccessType := accessType
          Restrooms := restrooms == "Yes"
          Picnic := picnic == "Yes"
          Fishing := fishing == "Yes"
          Address := address
          Fee := fee == "Yes"
          BikeRack := bikeRack == "Yes"
          Difficulty := mapDifficulty cls } := by
  obtain ⟨name, h29⟩ := getElem?_of_lt record 29 (by omega)
  obtain ⟨accessType, h6⟩ := getElem?_of_lt record 6 (by omega)
  obtain ⟨restrooms, h1⟩ := getElem?_of_lt record 1 (by omega)
  obtain ⟨picnic, h2⟩ := getElem?_of_lt record 2 (by omega)
  obtain ⟨fishing, h3⟩ := getElem?_of_lt record 3 (by omega)
  obtain ⟨address, h8⟩ := getElem?_of_lt record 8 (by omega)
  obtain ⟨fee, h9⟩ := getElem?_of_lt record 9 (by omega)
  obtain ⟨bikeRack, h10⟩ := getElem?_of_lt record 10 (by omega)
  obtain ⟨cls, h7⟩ := getElem?_of_lt record 7 (by omega)
  refine ⟨name, accessType, restrooms, picnic, fishing, address, fee, bikeRack, cls,
    h29, h6, h1, h2, h3, h8, h9, h10, h7, ?_⟩
  simp only [trailOfRecord, index_of_getElem? record _ _ h29, index_of_getElem? record _ _ h6,
    index_of_getElem? record _ _ h1, index_of_getElem? record _ _ h2,
    index_of_getElem? record _ _ h3, index_of_getElem? record _ _ h8,
    index_of_getElem? record _ _ h9, index_of_getElem? record _ _ h10,
    index_of_getElem? record _ _ h7, bind, Except.bind, pure, Except.pure]

/-- The relation between a data row and the Trail the loader builds from it. -/
theorem trailOfRecord_fields (record : List String) (t : Trail)
    (h : trailOfRecord record = .ok t) :
    record[29]? = some t.Name ∧ record[6]? = some t.AccessType ∧
      (t.Restrooms = true ↔ record[1]? = some "Yes") ∧
      (t.Picnic = true ↔ record[2]? = some "Yes") ∧
      (t.Fishing = true ↔ record[3]? = some "Yes") ∧
      record[8]? = some t.Address ∧
      (t.Fee = true ↔ record[9]? = some "Yes") ∧
      (t.BikeRack = true ↔ record[10]? = some "Yes") ∧
      ∃ cls, record[7]? = some cls ∧ t.Difficulty = mapDifficulty cls := by
  by_cases hlen : 30 ≤ record.length
  · obtain ⟨name, accessType, restrooms, picnic, fishing, address, fee, bikeRack, cls,
      h29, h6, h1, h2, h3, h8, h9, h10, h7, ht⟩ := trailOfRecord_long record hlen
    rw [ht] at h
    cases h
    simp [h29, h6, h1, h2, h3, h8, h9, h10, h7]
  · rw [trailOfRecord_short record (by omega)] at h
    cases h

/-- The loop appends one Trail per row, in row order, when every row has 30 columns. -/
theorem loadLoop_long (rows : List (List String)) (trails : List Trail)
    (h : ∀ r ∈ rows, 30 ≤ r.length) :
    ∃ ts, loadLoop rows trails = .ok (trails ++ ts) ∧
      List.Forall₂ (fun r t => trailOfRecord r = .ok t) rows ts := by
  induction rows generalizing trails with
  | nil => exact ⟨[], by simp [loadLoop], List.Forall₂.nil⟩
  | cons record rest ih =>
    obtain ⟨name, accessType, restrooms, picnic, fishing, address, fee, bikeRack, cls,
      -, -, -, -, -, -, -, -, -, ht⟩ := trailOfRecord_long record (h record (by simp))
    obtain ⟨ts, hts, hall⟩ := ih (trails ++ [_]) (fun r hr => h r (by simp [hr]))
    refine ⟨_ :: ts, ?_, List.Forall₂.cons ht hall⟩
    simp only [loadLoop, ht, bind, Except.bind]
    rw [hts]
    simp

/-- The loop faults at the first row shorter than 30 columns. -/
theorem loadLoop_short (rows : List (List String)) (trails : List Trail)
    (h : ∃ r ∈ rows, r.length < 30) :
    ∃ r ∈ rows, r.length < 30 ∧
      loadLoop rows trails =
        .error (.indexOutOfRange (if r.length ≤ 7 then 7 else 29) r.length) := by
  induction rows generalizing trails with
  | nil => simp at h
  | cons record rest ih =>
    by_cases hlen : record.length < 30
    · exact ⟨record, by simp, hlen, by
        simp [loadLoop, trailOfRecord_short record hlen, bind, Except.bind]⟩
    · obtain ⟨name, accessType, restrooms, picnic, fishing, address, fee, bikeRack, cls,
        -, -, -, -, -, -, -, -, -, ht⟩ := trailOfRecord_long record (by omega)
      have hrest : ∃ r ∈ rest, r.length < 30 := by
        obtain ⟨r, hr, hlt⟩ := h
        rcases List.mem_cons.mp hr with rfl | hr
        · exact absurd hlt hlen
        · exact ⟨r, hr, hlt⟩
      obtain ⟨r, hr, hlt, hres⟩ := ih (trails ++ [_]) hrest
      refine ⟨r, by simp [hr], hlt, ?_⟩
      simp only [loadLoop, ht, bind, Except.bind]
      exact hres

theorem loadTrailsRows_cons (header : List String) (rows : List (List String)) :
    loadTrailsRows (header :: rows) =
      (loadLoop rows []).map (fun trails => (trails, none)) := by
  simp only [loadTrailsRows, sliceFrom, List.length_cons, List.drop_succ_cons, List.drop_zero,
    bind, Except.bind, pure, Except.pure, Except.map]
  rw [if_pos (by omega)]

theorem forall₂_relatedAt {α β : Type} (R : α → β → Prop) (xs : List α) (ys : List β)
    (h : List.Forall₂ R xs ys) (i : Nat) : relatedAt R xs ys i := by
  induction h generalizing i with
  | nil => intro x hx; simp at hx
  | cons hxy _ ih =>
    intro x hx
    cases i with
    | zero =>
      simp only [List.getElem?_cons_zero, Option.some.injEq] at hx
      subst hx
      exact ⟨_, by simp, hxy⟩
    | succ j =>
      simp only [List.getElem?_cons_succ] at hx
      obtain ⟨y, hy, hr⟩ := ih j x hx
      exact ⟨y, by simpa using hy, hr⟩

/-! ## Theorems about mapDifficulty and the loader -/

/-- C5: mapDifficulty is a total function of the class code: "T1" gives "Easy", "T2" gives
"Moderate", "T3" gives "Difficult", "T4" gives "Most Difficult", and every other string,
among them "T5", "", "t1" and "T1 ", gives "No". -/
theorem mapDifficulty_total :
    mapDifficulty "T1" = "Easy" ∧ mapDifficulty "T2" = "Moderate" ∧
      mapDifficulty "T3" = "Difficult" ∧ mapDifficulty "T4" = "Most Difficult" ∧
      (∀ cls : String, cls ≠ "T1" → cls ≠ "T2" → cls ≠ "T3" → cls ≠ "T4" →
        mapDifficulty cls = "No") ∧
      mapDifficulty "T5" = "No" ∧ mapDifficulty "" = "No" ∧ mapDifficulty "t1" = "No" ∧
      mapDifficulty "T1 " = "No" := by
  refine ⟨by decide, by decide, by decide, by decide, ?_, by decide, by decide, by decide,
    by decide⟩
  intro cls h1 h2 h3 h4
  simp [mapDifficulty, h1, h2, h3, h4]

/-- The code "T9" is none of the four mapped codes and is sent to "No". -/
theorem mapDifficulty_total_witness : mapDifficulty "T9" = "No" :=
  mapDifficulty_total.2.2.2.2.1 "T9" (by decide) (by decide) (by decide) (by decide)

/-- C6: for a data row with at least 30 columns the loader builds a Trail, and each boolean
field of it (Restrooms from column 1, Picnic from column 2, Fishing from column 3, Fee from
column 9, BikeRack from column 10) is true if and only if the raw text of its column is
exactly "Yes"; in particular the raw values "yes", "YES", "" and "No" give false. -/
theorem trailOfRecord_flags (record : List String) (h : 30 ≤ record.length) :
    ∃ t, trailOfRecord record = .ok t ∧
      (t.Restrooms = true ↔ record[1]? = some "Yes") ∧
      (t.Picnic = true ↔ record[2]? = some "Yes") ∧
      (t.Fishing = true ↔ record[3]? = some "Yes") ∧
      (t.Fee = true ↔ record[9]? = some "Yes") ∧
      (t.BikeRack = true ↔ record[10]? = some "Yes") ∧
      ∀ v ∈ ["yes", "YES", "", "No"],
        (record[1]? = some v → t.Restrooms = false) ∧
        (record[2]? = some v → t.Picnic = false) ∧
        (record[3]? = some v → t.Fishing = false) ∧
        (record[9]? = some v → t.Fee = false) ∧
        (record[10]? = some v → t.BikeRack = false) := by
  obtain ⟨name, accessType, restrooms, picnic, fishing, address, fee, bikeRack, cls,
    -, -, -, -, -, -, -, -, -, ht⟩ := trailOfRecord_long record h
  obtain ⟨-, -, h1, h2, h3, -, h9, h10, -⟩ := trailOfRecord_fields record _ ht
  refine ⟨_, ht, h1, h2, h3, h9, h10, ?_⟩
  intro v hv
  have hne : v ≠ "Yes" := by
    intro hyes
    subst hyes
    revert hv
    decide
  have key : ∀ (b : Bool) (i : Nat), (b = true ↔ record[i]? = some "Yes") →
      record[i]? = some v → b = false := by
    intro b i hb hi
    cases b with
    | false => rfl
    | true =>
      have := hb.mp rfl
      rw [hi] at this
      exact absurd (Option.some.inj this) hne
  exact ⟨key _ 1 h1, key _ 2 h2, key _ 3 h3, key _ 9 h9, key _ 10 h10⟩

/-- A 30-column row with raw flags "Yes", "yes", "YES", "Yes", "No". -/
theorem trailOfRecord_flags_witness :
    30 ≤ (sampleRow "Bobolink" "Trailhead" "Yes" "yes" "YES" "T1" "Main St" "Yes" "No").length ∧
    ∃ t, trailOfRecord
          (sampleRow "Bobolink" "Trailhead" "Yes" "yes" "YES" "T1" "Main St" "Yes" "No") = .ok t ∧
      t.Restrooms = true ∧ t.Picnic = false ∧ t.Fishing = false ∧ t.Fee = true ∧
      t.BikeRack = false := by
  refine ⟨by decide, ?_⟩
  obtain ⟨t, ht, h1, h2, h3, h9, h10, hv⟩ := trailOfRecord_flags
    (sampleRow "Bobolink" "Trailhead" "Yes" "yes" "YES" "T1" "Main St" "Yes" "No") (by decide)
  refine ⟨t, ht, h1.mpr (by decide), ?_, ?_, h9.mpr (by decide), ?_⟩
  · exact (hv "yes" (by decide)).2.1 (by decide)
  · exact (hv "YES" (by decide)).2.2.1 (by decide)
  · exact (hv "No" (by decide)).2.2.2.2 (by decide)

/-- C7: for a header row followed by data rows that each have at least 30 columns, the
row-mapping part of loadTrailsData returns, with a nil error, exactly one Trail per data row
(none for the header), and the i-th Trail is built from the i-th data row: Name is column 29,
AccessType column 6, Restrooms, Picnic and Fishing come from columns 1, 2 and 3, Address is
column 8, Fee and BikeRack come from columns 9 and 10, and Difficulty is mapDifficulty of
column 7. -/
theorem loadTrailsRows_maps (header : List String) (rows : List (List String))
    (h : ∀ r ∈ rows, 30 ≤ r.length) :
    ∃ ts, loadTrailsRows (header :: rows) = .ok (ts, none) ∧ ts.length = rows.length ∧
      ∀ (i : Nat) (r : List String), rows[i]? = some r →
        ∃ t, ts[i]? = some t ∧
          r[29]? = some t.Name ∧ r[6]? = some t.AccessType ∧
          (t.Restrooms = true ↔ r[1]? = some "Yes") ∧
          (t.Picnic = true ↔ r[2]? = some "Yes") ∧
          (t.Fishing = true ↔ r[3]? = some "Yes") ∧
          r[8]? = some t.Address ∧
          (t.Fee = true ↔ r[9]? = some "Yes") ∧
          (t.BikeRack = true ↔ r[10]? = some "Yes") ∧
          ∃ cls, r[7]? = some cls ∧ t.Difficulty = mapDifficulty cls := by
  obtain ⟨ts, hts, hall⟩ := loadLoop_long rows [] h
  refine ⟨ts, ?_, hall.length_eq.symm, ?_⟩
  · rw [loadTrailsRows_cons, hts]
    rfl
  · intro i r hr
    obtain ⟨t, ht, hrt⟩ := forall₂_relatedAt _ rows ts hall i r hr
    exact ⟨t, ht, trailOfRecord_fields r t hrt⟩

/-- The sample file: a header and three 30-column rows give three Trails in row order. -/
theorem loadTrailsRows_maps_witness :
    (∀ r ∈ sampleData, 30 ≤ r.length) ∧
    loadTrailsRows (sampleHeader :: sampleData) = .ok (sampleTrails, none) ∧
    ∃ ts, loadTrailsRows (sampleHeader :: sampleData) = .ok (ts, none) ∧
      ts.length = sampleData.length :=
  ⟨by decide, rfl,
    (loadTrailsRows_maps sampleHeader sampleData (by decide)).imp fun _ hts => ⟨hts.1, hts.2.1⟩⟩

/-- C9: in the row-mapping part of loadTrailsData, after a header row, some data row has
fewer than 30 columns exactly when the mapping faults with an out-of-range index access (an
index among the columns the loader reads, on a row of fewer than 30 columns that is too
short for it), and every data row has at least 30 columns exactly when the mapping returns
a Trail list with a nil error; a non-nil error value is never returned. -/
theorem loadTrailsRows_fault_iff (header : List String) (rows : List (List String)) :
    ((∃ r ∈ rows, r.length < 30) ↔
      ∃ i n, i ∈ [29, 6, 1, 2, 3, 8, 9, 10, 7] ∧ n ≤ i ∧ n < 30 ∧
        loadTrailsRows (header :: rows) = .error (.indexOutOfRange i n)) ∧
    ((∀ r ∈ rows, 30 ≤ r.length) ↔ ∃ ts, loadTrailsRows (header :: rows) = .ok (ts, none)) ∧
    (∀ ts err, loadTrailsRows (header :: rows) ≠ .ok (ts, some err)) := by
  by_cases hall : ∀ r ∈ rows, 30 ≤ r.length
  · obtain ⟨ts, hts, -⟩ := loadLoop_long rows [] hall
    have hok : loadTrailsRows (header :: rows) = .ok (ts, none) := by
      rw [loadTrailsRows_cons, hts]
      rfl
    refine ⟨⟨?_, ?_⟩, ⟨fun _ => ⟨ts, hok⟩, fun _ => hall⟩, ?_⟩
    · rintro ⟨r, hr, hlt⟩
      have := hall r hr
      omega
    · rintro ⟨i, n, -, -, -, hn⟩
      rw [hok] at hn
      cases hn
    · intro ts2 err heq
      rw [hok] at heq
      cases heq
  · have hex : ∃ r ∈ rows, r.length < 30 := by
      by_contra hno
      exact hall fun r hr => by
        by_contra hlt
        exact hno ⟨r, hr, by omega⟩
    obtain ⟨r, -, hlt, hres⟩ := loadLoop_short rows [] hex
    have herr : loadTrailsRows (header :: rows) =
        .error (.indexOutOfRange (if r.length ≤ 7 then 7 else 29) r.length) := by
      rw [loadTrailsRows_cons, hres]
      rfl
    have hfault : ∃ i n, i ∈ [29, 6, 1, 2, 3, 8, 9, 10, 7] ∧ n ≤ i ∧ n < 30 ∧
        loadTrailsRows (header :: rows) = .error (.indexOutOfRange i n) := by
      refine ⟨if r.length ≤ 7 then 7 else 29, r.length, ?_, ?_, hlt, herr⟩
      · split <;> simp
      · split <;> omega
    refine ⟨⟨fun _ => hfault, fun _ => hex⟩, ⟨fun h => absurd h hall, ?_⟩, ?_⟩
    · rintro ⟨ts, hts⟩
      rw [herr] at hts
      cases hts
    · intro ts err heq
      rw [herr] at heq
      cases heq

/-- Two files whose rows all have the width of their header: with three columns the data
row faults at index 7, with twelve columns at index 29; no error value is returned. -/
theorem loadTrailsRows_fault_iff_witness :
    loadTrailsRows narrowFile = .error (.indexOutOfRange 7 3) ∧
    loadTrailsRows twelveColumnFile = .error (.indexOutOfRange 29 12) ∧
    ∃ i n, i ∈ [29, 6, 1, 2, 3, 8, 9, 10, 7] ∧ n ≤ i ∧ n < 30 ∧
      loadTrailsRows narrowFile = .error (.indexOutOfRange i n) :=
  ⟨rfl, rfl, (loadTrailsRows_fault_iff ["ID", "Restrooms", "Picnic"] [["1", "Yes", "No"]]).1.mp
    ⟨["1", "Yes", "No"], by simp, by decide⟩⟩

/-- C10: when the file opens and parses, a parsed input of zero rows makes loadTrailsData
fault on the slice expression that skips the header (bounds 1 and 0) instead of returning a
Trail list or an error, and the load returns an empty Trail list with a nil error exactly
when the parsed input has one row, the header. -/
theorem loadTrailsData_empty_input (w : World) (filename : String)
    (records : List (List String)) (hopen : w.osOpen filename = none)
    (hread : w.readAll filename = .ok records) :
    (records = [] → loadTrailsData w filename = .error (.sliceBoundsOutOfRange 1 0)) ∧
    (loadTrailsData w filename = .ok ([], none) ↔ records.length = 1) := by
  have hload : loadTrailsData w filename = loadTrailsRows records := by
    simp [loadTrailsData, hopen, hread]
  rw [hload]
  constructor
  · intro hnil
    subst hnil
    rfl
  · cases records with
    | nil =>
      constructor
      · intro h
        cases h
      · intro h
        simp at h
    | cons header rows =>
      cases rows with
      | nil => exact ⟨fun _ => rfl, fun _ => rfl⟩
      | cons record rest =>
        constructor
        · intro h
          exfalso
          rw [loadTrailsRows_cons] at h
          by_cases hlen : 30 ≤ record.length
          · obtain ⟨name, accessType, restrooms, picnic, fishing, address, fee, bikeRack, cls,
              -, -, -, -, -, -, -, -, -, ht⟩ := trailOfRecord_long record hlen
            by_cases hrest : ∀ r ∈ rest, 30 ≤ r.length
            · obtain ⟨ts, hts, -⟩ := loadLoop_long rest ([] ++ [_]) hrest
              simp only [loadLoop, ht, bind, Except.bind] at h
              rw [hts] at h
              simp [Except.map] at h
            · have hex : ∃ r ∈ rest, r.length < 30 := by
                by_contra hno
                exact hrest fun r hr => by
                  by_contra hlt
                  exact hno ⟨r, hr, by omega⟩
              obtain ⟨r, -, -, hres⟩ := loadLoop_short rest ([] ++ [_]) hex
              simp only [loadLoop, ht, bind, Except.bind] at h
              rw [hres] at h
              cases h
          · simp only [loadLoop, trailOfRecord_short record (by omega), bind, Except.bind] at h
            cases h
        · intro h
          simp at h

/-- An empty parsed file faults; a header-only file loads as the empty list. -/
theorem loadTrailsData_empty_input_witness :
    (worldWithRows []).osOpen "BoulderTrailHeads.csv" = none ∧
    (worldWithRows []).readAll "BoulderTrailHeads.csv" = .ok [] ∧
    loadTrailsData (worldWithRows []) "BoulderTrailHeads.csv" =
      .error (.sliceBoundsOutOfRange 1 0) ∧
    loadTrailsData (worldWithRows [sampleHeader]) "BoulderTrailHeads.csv" = .ok ([], none) :=
  ⟨rfl, rfl,
    (loadTrailsData_empty_input (worldWithRows []) "BoulderTrailHeads.csv" [] rfl rfl).1 rfl,
    (loadTrailsData_empty_input (worldWithRows [sampleHeader]) "BoulderTrailHeads.csv"
      [sampleHeader] rfl rfl).2.mpr rfl⟩

/-! ## Theorems about handleTrails -/

theorem FormValue_eq_on_iff (form : Form) (key : String) :
    (FormValue form key == "on") = true ↔ (form key).head? = some "on" := by
  unfold FormValue
  cases form key with
  | nil => simp
  | cons v vs => simp

theorem FormValue_eq_head (form : Form) (key : String) :
    FormValue form key = ((form key).head?).getD "" := by
  unfold FormValue
  cases form key <;> rfl

/-- C8: when the load succeeds with trail list trails, handleTrails passes to the template
the result of filterTrails on trails with address and difficulty equal to the form values of
"address" and "difficulty" (the first submitted value, "" when absent) and with each of
restrooms, picnic, fishing, fee and bikeRack true if and only if the first value of the form
field "restrooms", "picnic", "fishing", "fee", "bikerack" is exactly "on"; an absent field
or any other value leaves the criterion false. -/
theorem handleTrails_criteria (w : World) (form : Form) (trails : List Trail)
    (hload : loadTrailsData w "BoulderTrailHeads.csv" = .ok (trails, none)) :
    ∃ restrooms picnic fishing fee bikeRack : Bool,
      handleTrails w form =
        (match w.parseFiles "trails.html" with
          | some err => .error (.templateMust err)
          | none => .ok (.executed "trails.html"
              (filterTrails trails (((form "address").head?).getD "")
                (((form "difficulty").head?).getD "")
                restrooms picnic fishing fee bikeRack))) ∧
      (restrooms = true ↔ (form "restrooms").head? = some "on") ∧
      (picnic = true ↔ (form "picnic").head? = some "on") ∧
      (fishing = true ↔ (form "fishing").head? = some "on") ∧
      (fee = true ↔ (form "fee").head? = some "on") ∧
      (bikeRack = true ↔ (form "bikerack").head? = some "on") := by
  refine ⟨FormValue form "restrooms" == "on", FormValue form "picnic" == "on",
    FormValue form "fishing" == "on", FormValue form "fee" == "on",
    FormValue form "bikerack" == "on", ?_, FormValue_eq_on_iff form _,
    FormValue_eq_on_iff form _, FormValue_eq_on_iff form _, FormValue_eq_on_iff form _,
    FormValue_eq_on_iff form _⟩
  simp only [handleTrails, hload, FormValue_eq_head]

/-- The request "address=Main St&fee=on" on the sample file renders exactly the one trail
on Main St that charges a fee. -/
theorem handleTrails_criteria_witness :
    loadTrailsData (worldWithRows (sampleHeader :: sampleData)) "BoulderTrailHeads.csv" =
      .ok (sampleTrails, none) ∧
    handleTrails (worldWithRows (sampleHeader :: sampleData)) sampleForm =
      .ok (.executed "trails.html" (sampleTrails.take 1)) ∧
    ∃ restrooms picnic fishing fee bikeRack : Bool,
      handleTrails (worldWithRows (sampleHeader :: sampleData)) sampleForm =
        .ok (.executed "trails.html"
          (filterTrails sampleTrails "Main St" "" restrooms picnic fishing fee bikeRack)) ∧
      restrooms = false ∧ picnic = false ∧ fishing = false ∧ fee = true ∧ bikeRack = false := by
  refine ⟨rfl, rfl, ?_⟩
  obtain ⟨restrooms, picnic, fishing, fee, bikeRack, hres, h1, h2, h3, h4, h5⟩ :=
    handleTrails_criteria (worldWithRows (sampleHeader :: sampleData)) sampleForm sampleTrails rfl
  refine ⟨restrooms, picnic, fishing, fee, bikeRack, hres, ?_, ?_, ?_, h4.mpr rfl, ?_⟩
  · exact Bool.eq_false_iff.mpr fun hb => absurd (h1.mp hb) (by decide)
  · exact Bool.eq_false_iff.mpr fun hb => absurd (h2.mp hb) (by decide)
  · exact Bool.eq_false_iff.mpr fun hb => absurd (h3.mp hb) (by decide)
  · exact Bool.eq_false_iff.mpr fun hb => absurd (h5.mp hb) (by decide)

end TrailFinder
